import Mathlib

/-!
Shallow embedding of the merge-dice game engine (src/js/game.js).

The engine's mutable state (`Game` class fields `board`, `score`, `moveCount`,
`highestDie`, `selectedCell`, `gameOver`, `highScores`) is modelled as a Lean
structure, and each engine operation as a state-passing function that follows
the source line by line.  Randomness in `addRandomDie` (`Math.random`) is made
explicit: the draw over empty cells becomes a `Nat` oracle `k` (reduced modulo
the number of empty cells, matching `Math.floor(Math.random() * length)`),
and the 70/30 value draw becomes a `Bool` oracle `coin` (`true` models
`Math.random() < 0.7`, i.e. value 1).  `Date` / `new Date().toISOString()` is
an explicit `date : String` argument.  UI and audio calls mutate no engine
state and are dropped.  JS `null` becomes `Option.none`; the arithmetic
coercion `null + 1 === 1` is reproduced by `Option.getD · 0` before `+ 1`.
-/

namespace MergeDice

/-! Data model and engine operations, embedded from src/js/game.js. -/

/-- A persisted high-score entry, as built by `saveScore` in game.js:
`{ score, highestDie, date: new Date().toISOString() }`. -/
structure ScoreRecord where
  score : Nat
  highestDie : Nat
  date : String
deriving DecidableEq

/-- The engine state: the fields of the `Game` class that the game logic
reads and writes (board cells are `none` for empty, `some v` for a die of
value `v`). -/
structure Game where
  board : List (Option Nat)
  score : Nat
  moveCount : Nat
  highestDie : Nat
  selectedCell : Option Nat
  gameOver : Bool
  highScores : List ScoreRecord
deriving DecidableEq

/-- The constructor field `this.boardSize = 5` of game.js. -/
def boardSize : Nat := 5

/-- The constructor field `this.initialDice = 3` of game.js. -/
def initialDice : Nat := 3

/-- The `isGameOver` method of game.js: `false` if any cell is empty
(`this.board.includes(null)`); otherwise the nested row/column loops return
`false` as soon as some cell's value equals its right neighbour
(`col < boardSize - 1`) or its bottom neighbour (`row < boardSize - 1`),
and `true` after the loops complete. -/
def isGameOver (g : Game) : Bool :=
  if g.board.contains none then false
  else
    !((List.range boardSize).any fun row =>
      (List.range boardSize).any fun col =>
        let index := row * boardSize + col
        let value := g.board.getD index none
        (decide (col < boardSize - 1) &&
          decide (g.board.getD (row * boardSize + (col + 1)) none = value)) ||
        (decide (row < boardSize - 1) &&
          decide (g.board.getD ((row + 1) * boardSize + col) none = value)))

/-- The `saveScore` method of game.js: returns unchanged when
`this.score <= 0`; otherwise pushes `{score, highestDie, date}` onto
`this.highScores`, sorts descending by score (`(a, b) => b.score - a.score`),
and keeps only the top 10 (`slice(0, 10)` when the length exceeds 10).
The leaderboard/SDK side effects touch no engine state and are dropped. -/
def saveScore (g : Game) (date : String) : Game :=
  if g.score ≤ 0 then g
  else
    let entry : ScoreRecord := { score := g.score, highestDie := g.highestDie, date := date }
    let pushed := g.highScores ++ [entry]
    let sorted := List.insertionSort (fun a b => b.score ≤ a.score) pushed
    let trimmed := if sorted.length > 10 then sorted.take 10 else sorted
    { g with highScores := trimmed }

/-- The `mergeDice(index1, index2)` method of game.js, in source order:
read `value = board[index1]`, set `newValue = value + 1`, clear both cells,
place `newValue` at `index2`, add `newValue * 2` to the score, run
`saveScore`, increment `moveCount`, raise `highestDie` if `newValue` exceeds
it, clear the selection, and finally set `gameOver` via `handleGameOver`
when `isGameOver()` holds.  There is no precondition check of any kind in
the source. -/
def mergeDice (g : Game) (index1 index2 : Nat) (date : String) : Game :=
  let value := (g.board.getD index1 none).getD 0
  let newValue := value + 1
  let cleared := (g.board.set index1 none).set index2 none
  let placed := cleared.set index2 (some newValue)
  let afterScore : Game := { g with board := placed, score := g.score + newValue * 2 }
  let afterSave := saveScore afterScore date
  let afterMove : Game := { afterSave with moveCount := afterSave.moveCount + 1 }
  let afterHigh : Game :=
    if newValue > afterMove.highestDie then { afterMove with highestDie := newValue }
    else afterMove
  let deselected : Game := { afterHigh with selectedCell := none }
  if isGameOver deselected then { deselected with gameOver := true } else deselected

/-- The empty-cell index list of `addRandomDie`:
`board.map((val, idx) => val === null ? idx : -1).filter(idx => idx !== -1)`,
i.e. the indices `i < board.length` with `board[i] === null`, in increasing
order. -/
def emptyCells (board : List (Option Nat)) : List Nat :=
  (List.range board.length).filter fun i => board.getD i none = none

/-- The `addRandomDie` method of game.js: if there is no empty cell it only
refreshes the add-die button (no state change) and returns; otherwise it
places a die of value 1 (`coin = true`, probability 0.7) or 2 (`coin =
false`) on the empty cell drawn by the oracle `k`, then sets `gameOver` via
`handleGameOver` when `isGameOver()` holds.  `highestDie` is not touched. -/
def addRandomDie (g : Game) (k : Nat) (coin : Bool) : Game :=
  let empties := emptyCells g.board
  if empties.length = 0 then g
  else
    let randomIndex := empties.getD (k % empties.length) 0
    let value : Nat := if coin then 1 else 2
    let placed : Game := { g with board := g.board.set randomIndex (some value) }
    if isGameOver placed then { placed with gameOver := true } else placed

/-- The `handleCellClick(index)` method of game.js: ignore the click when the
game is over or the cell is empty; select when nothing is selected; deselect
when re-clicking the selection; merge (`mergeDice(selectedCell, index)`) when
the clicked value equals the selected value; otherwise move the selection to
the clicked cell. -/
def handleCellClick (g : Game) (index : Nat) (date : String) : Game :=
  if g.gameOver then g
  else if g.board.getD index none = none then g
  else
    match g.selectedCell with
    | none => { g with selectedCell := some index }
    | some sel =>
      if sel = index then { g with selectedCell := none }
      else if g.board.getD sel none = g.board.getD index none then
        mergeDice g sel index date
      else { g with selectedCell := some index }

/-- The reset performed at the top of `actuallyStartNewGame`: all-empty
5×5 board, score 0, moveCount 0, highestDie 1, no selection, game not over.
`highScores` (loaded from local storage) is kept. -/
def initialState (hs : List ScoreRecord) : Game :=
  { board := List.replicate (boardSize * boardSize) none
    score := 0
    moveCount := 0
    highestDie := 1
    selectedCell := none
    gameOver := false
    highScores := hs }

/-- The `actuallyStartNewGame` method of game.js: reset the state, then call
`addRandomDie()` `initialDice` times.  The random draws of the `i`-th spawn
are supplied by `choices[i]`. -/
def actuallyStartNewGame (hs : List ScoreRecord) (choices : List (Nat × Bool)) : Game :=
  (List.range initialDice).foldl
    (fun g i => addRandomDie g (choices.getD i (0, true)).1 (choices.getD i (0, true)).2)
    (initialState hs)

/-- One engine operation, as invocable from outside: a cell click
(`handleCellClick`), a direct two-index merge as issued by the drag layer
(`mergeDice`), or a spawn (`addRandomDie`) with its random draws. -/
inductive Op where
  | click : Nat → String → Op
  | merge : Nat → Nat → String → Op
  | spawn : Nat → Bool → Op
deriving DecidableEq

/-- Apply one operation to the engine state. -/
def applyOp (g : Game) : Op → Game
  | Op.click i d => handleCellClick g i d
  | Op.merge i j d => mergeDice g i j d
  | Op.spawn k c => addRandomDie g k c

/-- Apply a sequence of operations in order. -/
def runOps (g : Game) (ops : List Op) : Game := ops.foldl applyOp g

/-- The source cell whose die a click on `index` would merge into `index`:
`some sel` exactly when `handleCellClick` reaches its `mergeDice` branch,
`none` in every other branch. -/
def clickMergeSource (g : Game) (index : Nat) : Option Nat :=
  if g.gameOver then none
  else if g.board.getD index none = none then none
  else
    match g.selectedCell with
    | none => none
    | some sel =>
      if sel = index then none
      else if g.board.getD sel none = g.board.getD index none then some sel
      else none

/-- The `newValue` produced if the given operation performs a merge on state
`g`, and `none` if it performs no merge. -/
def opMergedValue (g : Game) : Op → Option Nat
  | Op.click i _ => (clickMergeSource g i).map fun sel => (g.board.getD sel none).getD 0 + 1
  | Op.merge i _ _ => some ((g.board.getD i none).getD 0 + 1)
  | Op.spawn _ _ => none

/-- The largest `newValue` produced by any merge along a run of `ops` from
state `g` (0 when no merge happens). -/
def traceMergeMax (g : Game) : List Op → Nat
  | [] => 0
  | op :: ops => max ((opMergedValue g op).getD 0) (traceMergeMax (applyOp g op) ops)

/-- The grid is completely full: no cell of the 5×5 board is empty. -/
def boardFull (b : List (Option Nat)) : Prop :=
  ∀ i, i < boardSize * boardSize → b.getD i none ≠ none

/-- No cell's value equals its right neighbour's or its bottom neighbour's
value (every adjacent pair checked once, from the lower-index side). -/
def noAdjacentEqualPair (b : List (Option Nat)) : Prop :=
  ∀ row col, row < boardSize → col < boardSize →
    (col + 1 < boardSize →
      b.getD (row * boardSize + col) none ≠ b.getD (row * boardSize + (col + 1)) none) ∧
    (row + 1 < boardSize →
      b.getD (row * boardSize + col) none ≠ b.getD ((row + 1) * boardSize + col) none)

/-- A 5×5 board with two dice of value 2 at indices 0 and 1, all other cells
empty. -/
def exBoard1 : List (Option Nat) :=
  ((List.replicate 25 (none : Option Nat)).set 0 (some 2)).set 1 (some 2)

/-- A mid-game state on `exBoard1`. -/
def exGame1 : Game :=
  { board := exBoard1
    score := 4
    moveCount := 1
    highestDie := 2
    selectedCell := none
    gameOver := false
    highScores := [] }

/-- A 5×5 board with a 2 at index 0 and a 3 at index 1 — two dice of
unequal value. -/
def exBoard2 : List (Option Nat) :=
  ((List.replicate 25 (none : Option Nat)).set 0 (some 2)).set 1 (some 3)

/-- A mid-game state on `exBoard2` with cell 0 selected. -/
def exGame2 : Game :=
  { board := exBoard2
    score := 10
    moveCount := 2
    highestDie := 3
    selectedCell := some 0
    gameOver := false
    highScores := [] }

/-- A completely full 5×5 board (every cell holds a 1). -/
def exGameFull : Game :=
  { board := List.replicate 25 (some 1)
    score := 8
    moveCount := 4
    highestDie := 2
    selectedCell := none
    gameOver := false
    highScores := [] }

/-- The state `exGame1` after the game has ended. -/
def exGameOver : Game :=
  { exGame1 with gameOver := true }

/-- The descending-score order used by `saveScore`'s comparator
`(a, b) => b.score - a.score`. -/
def byScoreDesc (a b : ScoreRecord) : Prop := b.score ≤ a.score

instance : DecidableRel byScoreDesc := fun a b => Nat.decLe b.score a.score

instance : IsTotal ScoreRecord byScoreDesc :=
  ⟨fun a b => Nat.le_total b.score a.score⟩

instance : IsTrans ScoreRecord byScoreDesc :=
  ⟨fun _ _ _ hab hbc => Nat.le_trans hbc hab⟩

/-- A full 5×5 board in a strict checkerboard of 1s and 2s: no two adjacent
cells are equal, so the game is over. -/
def exGameCheckerboard : Game :=
  { board := (List.range 25).map fun i =>
      if (i / 5 + i % 5) % 2 = 0 then some 1 else some 2
    score := 0
    moveCount := 0
    highestDie := 2
    selectedCell := none
    gameOver := false
    highScores := [] }

/-- A cell is occupied when it holds a die. -/
def occupied (x : Option Nat) : Bool := x ≠ none

/-- The cell index drawn by `addRandomDie`'s oracle `k`: the `randomIndex`
of game.js. -/
def spawnIndex (g : Game) (k : Nat) : Nat :=
  (emptyCells g.board).getD (k % (emptyCells g.board).length) 0

/-- The board after `addRandomDie` places its die (value 1 when `coin`,
else 2) on the drawn cell. -/
def spawnBoard (g : Game) (k : Nat) (c : Bool) : List (Option Nat) :=
  g.board.set (spawnIndex g k) (some (if c then 1 else 2))

/-! Helper lemmas, then one theorem per claim with its witness or
counterexample, on top of the embedding above. -/

theorem getD_set_eq (l : List (Option Nat)) (i : Nat) (v : Option Nat) (h : i < l.length) :
    (l.set i v).getD i none = v := by
  simp [List.getD_eq_getElem?_getD, List.getElem?_set_self h]

theorem getD_set_ne (l : List (Option Nat)) (i j : Nat) (v : Option Nat) (h : i ≠ j) :
    (l.set i v).getD j none = l.getD j none := by
  simp [List.getD_eq_getElem?_getD, List.getElem?_set_ne h]

theorem lt_length_of_getD_eq_some {l : List (Option Nat)} {i : Nat} {v : Nat}
    (h : l.getD i none = some v) : i < l.length := by
  by_contra h'
  push_neg at h'
  rw [List.getD_eq_getElem?_getD, List.getElem?_eq_none h'] at h
  simp at h

theorem saveScore_board (g : Game) (d : String) : (saveScore g d).board = g.board := by
  unfold saveScore; split <;> rfl

theorem saveScore_score (g : Game) (d : String) : (saveScore g d).score = g.score := by
  unfold saveScore; split <;> rfl

theorem saveScore_moveCount (g : Game) (d : String) : (saveScore g d).moveCount = g.moveCount := by
  unfold saveScore; split <;> rfl

theorem saveScore_highestDie (g : Game) (d : String) :
    (saveScore g d).highestDie = g.highestDie := by
  unfold saveScore; split <;> rfl

theorem saveScore_selectedCell (g : Game) (d : String) :
    (saveScore g d).selectedCell = g.selectedCell := by
  unfold saveScore; split <;> rfl

theorem saveScore_gameOver (g : Game) (d : String) : (saveScore g d).gameOver = g.gameOver := by
  unfold saveScore; split <;> rfl

theorem mergeDice_board (g : Game) (i j : Nat) (d : String) :
    (mergeDice g i j d).board =
      ((g.board.set i none).set j none).set j (some ((g.board.getD i none).getD 0 + 1)) := by
  simp [mergeDice, saveScore_board, apply_ite Game.board]

theorem mergeDice_score (g : Game) (i j : Nat) (d : String) :
    (mergeDice g i j d).score = g.score + ((g.board.getD i none).getD 0 + 1) * 2 := by
  simp [mergeDice, saveScore_score, apply_ite Game.score]

theorem mergeDice_moveCount (g : Game) (i j : Nat) (d : String) :
    (mergeDice g i j d).moveCount = g.moveCount + 1 := by
  simp [mergeDice, saveScore_moveCount, apply_ite Game.moveCount]

theorem mergeDice_highestDie (g : Game) (i j : Nat) (d : String) :
    (mergeDice g i j d).highestDie = max g.highestDie ((g.board.getD i none).getD 0 + 1) := by
  simp [mergeDice, saveScore_highestDie, apply_ite Game.highestDie]
  split <;> omega

theorem mergeDice_selectedCell (g : Game) (i j : Nat) (d : String) :
    (mergeDice g i j d).selectedCell = none := by
  simp [mergeDice, apply_ite Game.selectedCell]

theorem addRandomDie_score (g : Game) (k : Nat) (c : Bool) :
    (addRandomDie g k c).score = g.score := by
  simp [addRandomDie, apply_ite Game.score]

theorem addRandomDie_moveCount (g : Game) (k : Nat) (c : Bool) :
    (addRandomDie g k c).moveCount = g.moveCount := by
  simp [addRandomDie, apply_ite Game.moveCount]

theorem addRandomDie_highestDie (g : Game) (k : Nat) (c : Bool) :
    (addRandomDie g k c).highestDie = g.highestDie := by
  simp [addRandomDie, apply_ite Game.highestDie]

theorem addRandomDie_selectedCell (g : Game) (k : Nat) (c : Bool) :
    (addRandomDie g k c).selectedCell = g.selectedCell := by
  simp [addRandomDie, apply_ite Game.selectedCell]

theorem addRandomDie_highScores (g : Game) (k : Nat) (c : Bool) :
    (addRandomDie g k c).highScores = g.highScores := by
  simp [addRandomDie, apply_ite Game.highScores]

/-- C1: if cells `i` and `j` (distinct) both hold value `v`, then
`mergeDice i j` leaves the source cell `i` empty and the target cell `j`
holding `v + 1` — the merged die always lands at the target index. -/
theorem merge_result_lands_at_target (g : Game) (i j v : Nat) (d : String)
    (hij : i ≠ j)
    (hi : g.board.getD i none = some v) (hj : g.board.getD j none = some v) :
    (mergeDice g i j d).board.getD i none = none ∧
    (mergeDice g i j d).board.getD j none = some (v + 1) := by
  have hil : i < g.board.length := lt_length_of_getD_eq_some hi
  have hjl : j < g.board.length := lt_length_of_getD_eq_some hj
  have hji : j ≠ i := fun h => hij h.symm
  rw [mergeDice_board, hi]
  constructor
  · rw [getD_set_ne _ _ _ _ hji, getD_set_ne _ _ _ _ hji, getD_set_eq _ _ _ hil]
  · rw [getD_set_eq]
    · simp
    · simpa using hjl

/-- Witness for C1 at a concrete state: merging the 2 at index 0 into the 2
at index 1 empties cell 0 and puts a 3 at cell 1. -/
theorem merge_result_lands_at_target_witness :
    (mergeDice exGame1 0 1 "2025-01-01").board.getD 0 none = none ∧
    (mergeDice exGame1 0 1 "2025-01-01").board.getD 1 none = some 3 :=
  merge_result_lands_at_target exGame1 0 1 2 "2025-01-01"
    (by decide) (by decide) (by decide)

/-- C2: merging two cells holding value `v` adds exactly `(v + 1) * 2` to
the cumulative score. -/
theorem merge_score_delta (g : Game) (i j v : Nat) (d : String)
    (_hij : i ≠ j)
    (hi : g.board.getD i none = some v) (_hj : g.board.getD j none = some v) :
    (mergeDice g i j d).score = g.score + (v + 1) * 2 := by
  rw [mergeDice_score, hi]
  rfl

/-- Witness for C2 at a concrete state: merging two dice of value 2 adds
exactly 6 to the score (4 becomes 10). -/
theorem merge_score_delta_witness :
    (mergeDice exGame1 0 1 "2025-01-01").score = exGame1.score + (2 + 1) * 2 :=
  merge_score_delta exGame1 0 1 2 "2025-01-01" (by decide) (by decide) (by decide)

/-- C10: calling `mergeDice i i` on a cell holding `v` replaces the die in
place with `v + 1`, leaves every other cell unchanged, adds `(v + 1) * 2`
to the score, and increments `moveCount`. -/
theorem merge_same_index (g : Game) (i v : Nat) (d : String)
    (hi : g.board.getD i none = some v) :
    (mergeDice g i i d).board.getD i none = some (v + 1) ∧
    (∀ j, j ≠ i → (mergeDice g i i d).board.getD j none = g.board.getD j none) ∧
    (mergeDice g i i d).score = g.score + (v + 1) * 2 ∧
    (mergeDice g i i d).moveCount = g.moveCount + 1 := by
  have hil : i < g.board.length := lt_length_of_getD_eq_some hi
  refine ⟨?_, ?_, ?_, ?_⟩
  · rw [mergeDice_board, hi, getD_set_eq]
    · simp
    · simpa using hil
  · intro j hji
    rw [mergeDice_board, getD_set_ne _ _ _ _ (fun h => hji h.symm),
      getD_set_ne _ _ _ _ (fun h => hji h.symm), getD_set_ne _ _ _ _ (fun h => hji h.symm)]
  · rw [mergeDice_score, hi]
    rfl
  · exact mergeDice_moveCount g i i d

/-- Witness for C10 at a concrete state: merging cell 0 into itself turns
its 2 into a 3, leaves cell 1 alone, adds 6 to the score and bumps the move
count. -/
theorem merge_same_index_witness :
    (mergeDice exGame1 0 0 "2025-01-01").board.getD 0 none = some 3 ∧
    (mergeDice exGame1 0 0 "2025-01-01").board.getD 1 none = exGame1.board.getD 1 none ∧
    (mergeDice exGame1 0 0 "2025-01-01").score = exGame1.score + (2 + 1) * 2 ∧
    (mergeDice exGame1 0 0 "2025-01-01").moveCount = exGame1.moveCount + 1 := by
  have h := merge_same_index exGame1 0 2 "2025-01-01" (by decide)
  exact ⟨h.1, h.2.1 1 (by decide), h.2.2.1, h.2.2.2⟩

/-- C6: for an in-range click on a non-empty cell with the game not over,
`handleCellClick` selects the cell when nothing is selected, toggles the
selection off when re-clicking it, moves the selection when the values
differ, and merges the selected cell into the clicked one when the values
are equal and the indices differ. -/
theorem click_select_toggle_reselect_merge (g : Game) (index : Nat) (d : String)
    (hover : g.gameOver = false) (hcell : g.board.getD index none ≠ none) :
    (g.selectedCell = none →
      handleCellClick g index d = { g with selectedCell := some index }) ∧
    (g.selectedCell = some index →
      handleCellClick g index d = { g with selectedCell := none }) ∧
    (∀ sel, g.selectedCell = some sel → sel ≠ index →
      g.board.getD sel none ≠ g.board.getD index none →
      handleCellClick g index d = { g with selectedCell := some index }) ∧
    (∀ sel, g.selectedCell = some sel → sel ≠ index →
      g.board.getD sel none = g.board.getD index none →
      handleCellClick g index d = mergeDice g sel index d) := by
  have hover' : ¬ g.gameOver = true := by simp [hover]
  refine ⟨?_, ?_, ?_, ?_⟩
  · intro hsel
    unfold handleCellClick
    rw [if_neg hover', if_neg hcell, hsel]
  · intro hsel
    unfold handleCellClick
    rw [if_neg hover', if_neg hcell, hsel]
    simp
  · intro sel hsel hne hval
    unfold handleCellClick
    rw [if_neg hover', if_neg hcell, hsel]
    simp only []
    rw [if_neg hne, if_neg hval]
  · intro sel hsel hne hval
    unfold handleCellClick
    rw [if_neg hover', if_neg hcell, hsel]
    simp only []
    rw [if_neg hne, if_pos hval]

/-- Witness for C6: the four click behaviours at concrete states — fresh
select on `exGame1`, toggle-off and merge on `exGame1` with cell 0 selected,
re-select on `exGame2` (values 2 vs 3). -/
theorem click_select_toggle_reselect_merge_witness :
    (handleCellClick exGame1 1 "2025-01-01" = { exGame1 with selectedCell := some 1 }) ∧
    (handleCellClick { exGame1 with selectedCell := some 1 } 1 "2025-01-01" =
      { exGame1 with selectedCell := none }) ∧
    (handleCellClick exGame2 1 "2025-01-01" = { exGame2 with selectedCell := some 1 }) ∧
    (handleCellClick { exGame1 with selectedCell := some 0 } 1 "2025-01-01" =
      mergeDice { exGame1 with selectedCell := some 0 } 0 1 "2025-01-01") :=
  ⟨(click_select_toggle_reselect_merge exGame1 1 "2025-01-01"
      (by decide) (by decide)).1 rfl,
   (click_select_toggle_reselect_merge { exGame1 with selectedCell := some 1 } 1 "2025-01-01"
      (by decide) (by decide)).2.1 rfl,
   (click_select_toggle_reselect_merge exGame2 1 "2025-01-01"
      (by decide) (by decide)).2.2.1 0 rfl (by decide) (by decide),
   (click_select_toggle_reselect_merge { exGame1 with selectedCell := some 0 } 1 "2025-01-01"
      (by decide) (by decide)).2.2.2 0 rfl (by decide) (by decide)⟩

/-- Counterexample for C5: `mergeDice` performs no precondition check, so a
direct merge of two cells of unequal values (a 2 at index 0, a 3 at index 1)
is not a no-op: it empties cell 0, overwrites the 3 with a 2 + 1 = 3
(here visible through the score, which grows by 6). -/
theorem merge_unequal_values_mutates :
    { exGame2 with selectedCell := none }.board.getD 0 none = some 2 ∧
    { exGame2 with selectedCell := none }.board.getD 1 none = some 3 ∧
    { exGame2 with selectedCell := none }.gameOver = false ∧
    (mergeDice { exGame2 with selectedCell := none } 0 1 "2025-01-01").board.getD 0 none =
      none ∧
    (mergeDice { exGame2 with selectedCell := none } 0 1 "2025-01-01").score ≠
      { exGame2 with selectedCell := none }.score := by
  decide

/-- C5 (amended): the click entry point is the guarded one — while
`gameOver` is true `handleCellClick` is a complete no-op, and a click on a
cell whose value differs from the selected cell's never merges and leaves
board, score and highestDie unchanged (only the selection moves);
`mergeDice` itself performs no precondition check. -/
theorem click_rejections_leave_state_unchanged (g : Game) (index : Nat) (d : String) :
    (g.gameOver = true → handleCellClick g index d = g) ∧
    (∀ sel, g.gameOver = false → g.selectedCell = some sel → sel ≠ index →
      g.board.getD index none ≠ none →
      g.board.getD sel none ≠ g.board.getD index none →
      (handleCellClick g index d).board = g.board ∧
      (handleCellClick g index d).score = g.score ∧
      (handleCellClick g index d).highestDie = g.highestDie ∧
      (handleCellClick g index d).selectedCell = some index) := by
  constructor
  · intro hover
    unfold handleCellClick
    rw [if_pos hover]
  · intro sel hover hsel hne hcell hval
    have hover' : ¬ g.gameOver = true := by simp [hover]
    unfold handleCellClick
    rw [if_neg hover', if_neg hcell, hsel]
    simp only []
    rw [if_neg hne, if_neg hval]
    exact ⟨rfl, rfl, rfl, rfl⟩

/-- Witness for C5 (amended): a click while the game is over changes
nothing, and a click on the 3 at index 1 of `exGame2` (with the 2 at index 0
selected) leaves board, score and highestDie unchanged. -/
theorem click_rejections_leave_state_unchanged_witness :
    (handleCellClick exGameOver 0 "2025-01-01" = exGameOver) ∧
    ((handleCellClick exGame2 1 "2025-01-01").board = exGame2.board ∧
      (handleCellClick exGame2 1 "2025-01-01").score = exGame2.score ∧
      (handleCellClick exGame2 1 "2025-01-01").highestDie = exGame2.highestDie ∧
      (handleCellClick exGame2 1 "2025-01-01").selectedCell = some 1) :=
  ⟨(click_rejections_leave_state_unchanged exGameOver 0 "2025-01-01").1 rfl,
   (click_rejections_leave_state_unchanged exGame2 1 "2025-01-01").2 0
     rfl rfl (by decide) (by decide) (by decide)⟩

/-- C8: on a board with no empty cell, `addRandomDie` is a no-op: the whole
engine state (board, score, highestDie, gameOver, everything) is returned
unchanged. -/
theorem spawn_on_full_board_is_noop (g : Game) (k : Nat) (c : Bool)
    (h : ∀ cell ∈ g.board, cell ≠ none) :
    addRandomDie g k c = g := by
  have hempty : emptyCells g.board = [] := by
    unfold emptyCells
    rw [List.filter_eq_nil_iff]
    intro i hi
    rw [List.mem_range] at hi
    have hval : g.board.getD i none = g.board[i] := by
      rw [List.getD_eq_getElem?_getD, List.getElem?_eq_getElem hi]
      rfl
    simp only [decide_eq_true_eq, hval]
    exact h g.board[i] (List.getElem_mem hi)
  unfold addRandomDie
  rw [hempty]
  rfl

/-- Witness for C8: spawning on the completely full board `exGameFull`
returns the state unchanged. -/
theorem spawn_on_full_board_is_noop_witness :
    addRandomDie exGameFull 7 true = exGameFull :=
  spawn_on_full_board_is_noop exGameFull 7 true (by decide)

theorem insertionSort_byScoreDesc (l : List ScoreRecord) :
    List.insertionSort (fun a b => b.score ≤ a.score) l =
      List.insertionSort byScoreDesc l := rfl

/-- C9: after `saveScore` runs with a positive score (as it does after every
merge), the persisted high-score list is sorted in descending order of score
and holds at most 10 entries. -/
theorem saved_history_sorted_and_capped (g : Game) (d : String) (h : 0 < g.score) :
    List.Sorted byScoreDesc (saveScore g d).highScores ∧
    (saveScore g d).highScores.length ≤ 10 := by
  have hcond : ¬ g.score ≤ 0 := by omega
  have hsorted :
      List.Sorted byScoreDesc
        (List.insertionSort byScoreDesc
          (g.highScores ++ [{ score := g.score, highestDie := g.highestDie, date := d }])) :=
    List.sorted_insertionSort byScoreDesc _
  unfold saveScore
  rw [if_neg hcond]
  simp only [insertionSort_byScoreDesc]
  constructor
  · show List.Sorted byScoreDesc (if _ then _ else _)
    split
    · exact List.Pairwise.sublist (List.take_sublist _ _) hsorted
    · exact hsorted
  · show List.length (if _ then _ else _) ≤ 10
    split
    · simp [List.length_take]
    · rename_i hlen
      omega

/-- Witness for C9: saving from `exGame2` (score 10) yields a sorted history
of at most 10 entries. -/
theorem saved_history_sorted_and_capped_witness :
    0 < exGame2.score ∧
    List.Sorted byScoreDesc (saveScore exGame2 "2025-01-01").highScores ∧
    (saveScore exGame2 "2025-01-01").highScores.length ≤ 10 :=
  ⟨by decide,
   (saved_history_sorted_and_capped exGame2 "2025-01-01" (by decide)).1,
   (saved_history_sorted_and_capped exGame2 "2025-01-01" (by decide)).2⟩

/-- C3: `isGameOver` returns `true` iff the 5×5 grid has no empty cell and
no cell's value equals its right neighbour's or its bottom neighbour's
value; it returns `false` whenever some cell is empty or some adjacent
(right/down) equal pair exists. -/
theorem game_over_iff (g : Game) (h : g.board.length = 25) :
    isGameOver g = true ↔ boardFull g.board ∧ noAdjacentEqualPair g.board := by
  unfold isGameOver
  by_cases hc : (none : Option Nat) ∈ g.board
  · rw [if_pos (by simpa using hc)]
    simp only [Bool.false_eq_true, false_iff]
    rintro ⟨hfull, -⟩
    obtain ⟨n, hn, hval⟩ := List.mem_iff_getElem.mp hc
    refine hfull n (by unfold boardSize; omega) ?_
    rw [List.getD_eq_getElem?_getD, List.getElem?_eq_getElem hn, hval]
    rfl
  · rw [if_neg (by simpa using hc)]
    have hfull : boardFull g.board := by
      intro i hi hnone
      apply hc
      have hilen : i < g.board.length := by
        unfold boardSize at hi
        omega
      have hgi : g.board[i] = none := by
        rw [List.getD_eq_getElem?_getD, List.getElem?_eq_getElem hilen] at hnone
        simpa using hnone
      exact hgi ▸ List.getElem_mem hilen
    rw [Bool.not_eq_true', List.any_eq_false]
    constructor
    · intro hno
      refine ⟨hfull, ?_⟩
      intro row col hrow hcol
      have h1 := hno row (List.mem_range.mpr hrow)
      have h2 : ¬ ((decide (col < boardSize - 1) &&
            decide (g.board.getD (row * boardSize + (col + 1)) none =
              g.board.getD (row * boardSize + col) none)) ||
          (decide (row < boardSize - 1) &&
            decide (g.board.getD ((row + 1) * boardSize + col) none =
              g.board.getD (row * boardSize + col) none))) = true :=
        fun hp => h1 (List.any_eq_true.mpr ⟨col, List.mem_range.mpr hcol, hp⟩)
      simp only [Bool.or_eq_true, Bool.and_eq_true, decide_eq_true_eq] at h2
      constructor
      · intro hcb heq
        exact h2 (Or.inl ⟨by unfold boardSize at hcb ⊢; omega, heq.symm⟩)
      · intro hrb heq
        exact h2 (Or.inr ⟨by unfold boardSize at hrb ⊢; omega, heq.symm⟩)
    · rintro ⟨-, hadj⟩
      intro row hrow
      rw [List.mem_range] at hrow
      rw [Bool.not_eq_true, List.any_eq_false]
      intro col hcol
      rw [List.mem_range] at hcol
      simp only [Bool.or_eq_true, Bool.and_eq_true, decide_eq_true_eq]
      obtain ⟨hr, hb⟩ := hadj row col hrow hcol
      rintro (⟨hc4, heq⟩ | ⟨hr4, heq⟩)
      · exact hr (by unfold boardSize at hc4 ⊢; omega) heq.symm
      · exact hb (by unfold boardSize at hr4 ⊢; omega) heq.symm

/-- Witness for C3 at a concrete state: on the full checkerboard board, the
equivalence holds (and `isGameOver` is indeed `true` there). -/
theorem game_over_iff_witness :
    exGameCheckerboard.board.length = 25 ∧
    (isGameOver exGameCheckerboard = true ↔
      boardFull exGameCheckerboard.board ∧ noAdjacentEqualPair exGameCheckerboard.board) ∧
    isGameOver exGameCheckerboard = true :=
  ⟨by decide, game_over_iff exGameCheckerboard (by decide), by decide⟩

theorem mem_emptyCells {b : List (Option Nat)} {i : Nat} :
    i ∈ emptyCells b ↔ i < b.length ∧ b.getD i none = none := by
  simp [emptyCells, List.mem_filter, List.mem_range]

theorem contains_none_of_countP_lt {b : List (Option Nat)}
    (h : b.countP occupied < b.length) : (none : Option Nat) ∈ b := by
  by_contra hc
  have hall : ∀ a ∈ b, occupied a = true := by
    intro a ha
    by_cases hn : a = none
    · exact absurd (hn ▸ ha) hc
    · simp [occupied, hn]
  have := List.countP_eq_length.mpr hall
  omega

/-- When an empty cell exists and the placed die does not end the game,
`addRandomDie` reduces to placing the drawn value on the drawn empty cell. -/
theorem addRandomDie_eq_of_nonempty (g : Game) (k : Nat) (c : Bool)
    (hne : ¬ ((emptyCells g.board).length = 0))
    (hgo : isGameOver { g with board := spawnBoard g k c } = false) :
    addRandomDie g k c = { g with board := spawnBoard g k c } := by
  simp only [spawnBoard, spawnIndex, List.getD_eq_getElem?_getD] at hgo
  simp only [addRandomDie, spawnBoard, spawnIndex, List.getD_eq_getElem?_getD]
  rw [if_neg hne, if_neg (by simp [hgo])]

/-- One spawn on a board that stays non-full: the board length is kept, the
occupied count rises by exactly one, the game stays live, and every cell of
the new board is an old cell or a die of value 1 or 2. -/
theorem addRandomDie_step (g : Game) (k : Nat) (c : Bool)
    (hafter : g.board.countP occupied + 1 < g.board.length)
    (hover : g.gameOver = false) :
    (addRandomDie g k c).board.length = g.board.length ∧
    (addRandomDie g k c).board.countP occupied = g.board.countP occupied + 1 ∧
    (addRandomDie g k c).gameOver = false ∧
    (addRandomDie g k c).score = g.score ∧
    (addRandomDie g k c).highestDie = g.highestDie ∧
    (addRandomDie g k c).selectedCell = g.selectedCell ∧
    ∀ x ∈ (addRandomDie g k c).board, x ∈ g.board ∨ x = some 1 ∨ x = some 2 := by
  have hcount : g.board.countP occupied < g.board.length := by omega
  have hmem : (none : Option Nat) ∈ g.board := contains_none_of_countP_lt hcount
  obtain ⟨n, hn, hval⟩ := List.mem_iff_getElem.mp hmem
  have hnmem : n ∈ emptyCells g.board := by
    refine mem_emptyCells.mpr ⟨hn, ?_⟩
    rw [List.getD_eq_getElem?_getD, List.getElem?_eq_getElem hn, hval]
    rfl
  have hlenpos : 0 < (emptyCells g.board).length :=
    List.length_pos.mpr (fun he => by simp [he] at hnmem)
  have hklt : k % (emptyCells g.board).length < (emptyCells g.board).length :=
    Nat.mod_lt _ hlenpos
  have hrmem : spawnIndex g k ∈ emptyCells g.board := by
    unfold spawnIndex
    rw [List.getD_eq_getElem?_getD, List.getElem?_eq_getElem hklt]
    exact List.getElem_mem hklt
  obtain ⟨hrlt, hrnone⟩ := mem_emptyCells.mp hrmem
  have hrget : g.board[spawnIndex g k] = none := by
    rw [List.getD_eq_getElem?_getD, List.getElem?_eq_getElem hrlt] at hrnone
    simpa using hrnone
  have hne : ¬ ((emptyCells g.board).length = 0) := by omega
  have hcount' : ∀ v : Nat,
      (g.board.set (spawnIndex g k) (some v)).countP occupied =
        g.board.countP occupied + 1 := by
    intro v
    rw [List.countP_set _ _ _ _ hrlt, hrget]
    simp [occupied]
  have hmem' : ∀ v : Nat,
      (none : Option Nat) ∈ g.board.set (spawnIndex g k) (some v) := by
    intro v
    apply contains_none_of_countP_lt
    rw [hcount' v, List.length_set]
    omega
  have hgo : isGameOver { g with board := spawnBoard g k c } = false := by
    unfold isGameOver
    rw [if_pos]
    show (spawnBoard g k c).contains none = true
    simpa [spawnBoard] using hmem' (if c then 1 else 2)
  rw [addRandomDie_eq_of_nonempty g k c hne hgo]
  refine ⟨?_, ?_, hover, rfl, rfl, rfl, ?_⟩
  · simp [spawnBoard]
  · show (spawnBoard g k c).countP occupied = g.board.countP occupied + 1
    simp only [spawnBoard]
    exact hcount' _
  intro x hx
  simp only [spawnBoard] at hx
  rcases List.mem_or_eq_of_mem_set hx with hold | hnew
  · exact Or.inl hold
  · cases c
    · simp only [Bool.false_eq_true, if_false] at hnew
      exact Or.inr (Or.inr hnew)
    · simp only [if_pos rfl] at hnew
      exact Or.inr (Or.inl hnew)

/-- C7: starting a new game always yields a 5×5 board with exactly 3
(`initialDice`) occupied cells, each a die of value 1 or 2, all other cells
empty, score 0, highestDie 1, no selection, and the game not over —
whatever the random draws were. -/
theorem new_game_seeds_three_small_dice (hs : List ScoreRecord)
    (choices : List (Nat × Bool)) :
    (actuallyStartNewGame hs choices).board.length = 25 ∧
    (actuallyStartNewGame hs choices).board.countP occupied = 3 ∧
    (∀ x ∈ (actuallyStartNewGame hs choices).board,
      x = none ∨ x = some 1 ∨ x = some 2) ∧
    (actuallyStartNewGame hs choices).score = 0 ∧
    (actuallyStartNewGame hs choices).highestDie = 1 ∧
    (actuallyStartNewGame hs choices).selectedCell = none ∧
    (actuallyStartNewGame hs choices).gameOver = false := by
  have hrange : List.range initialDice = [0, 1, 2] := rfl
  unfold actuallyStartNewGame
  rw [hrange]
  simp only [List.foldl_cons, List.foldl_nil]
  have h0len : (initialState hs).board.length = 25 := by
    simp [initialState, boardSize]
  have h0cnt : (initialState hs).board.countP occupied = 0 := by
    apply List.countP_eq_zero.mpr
    intro a ha
    have := List.eq_of_mem_replicate ha
    simp [this, occupied]
  have h0small : ∀ x ∈ (initialState hs).board, x = none :=
    fun x hx => List.eq_of_mem_replicate hx
  have s1 := addRandomDie_step (initialState hs)
    (choices.getD 0 (0, true)).1 (choices.getD 0 (0, true)).2 (by omega) rfl
  obtain ⟨l1, c1, o1, sc1, hd1, se1, m1⟩ := s1
  have s2 := addRandomDie_step
    (addRandomDie (initialState hs) (choices.getD 0 (0, true)).1 (choices.getD 0 (0, true)).2)
    (choices.getD 1 (0, true)).1 (choices.getD 1 (0, true)).2 (by omega) o1
  obtain ⟨l2, c2, o2, sc2, hd2, se2, m2⟩ := s2
  have s3 := addRandomDie_step
    (addRandomDie
      (addRandomDie (initialState hs) (choices.getD 0 (0, true)).1 (choices.getD 0 (0, true)).2)
      (choices.getD 1 (0, true)).1 (choices.getD 1 (0, true)).2)
    (choices.getD 2 (0, true)).1 (choices.getD 2 (0, true)).2 (by omega) o2
  obtain ⟨l3, c3, o3, sc3, hd3, se3, m3⟩ := s3
  refine ⟨by omega, by omega, ?_, ?_, ?_, ?_, o3⟩
  · intro x hx
    rcases m3 x hx with hx2 | hsmall
    · rcases m2 x hx2 with hx1 | hsmall
      · rcases m1 x hx1 with hx0 | hsmall
        · exact Or.inl (h0small x hx0)
        · exact Or.inr hsmall
      · exact Or.inr hsmall
    · exact Or.inr hsmall
  · rw [sc3, sc2, sc1]
    rfl
  · rw [hd3, hd2, hd1]
    rfl
  · rw [se3, se2, se1]
    rfl

theorem applyOp_highestDie (g : Game) (op : Op) :
    (applyOp g op).highestDie = max g.highestDie ((opMergedValue g op).getD 0) := by
  cases op with
  | merge i j d =>
    simp [applyOp, opMergedValue, mergeDice_highestDie]
  | spawn k c =>
    simp [applyOp, opMergedValue, addRandomDie_highestDie]
  | click i d =>
    simp only [applyOp, opMergedValue]
    unfold handleCellClick clickMergeSource
    by_cases hover : g.gameOver = true
    · simp only [if_pos hover]
      simp
    · simp only [if_neg hover]
      by_cases hcell : g.board.getD i none = none
      · simp only [if_pos hcell]
        simp
      · simp only [if_neg hcell]
        cases hsel : g.selectedCell with
        | none => simp
        | some sel =>
          by_cases heq : sel = i
          · simp only [if_pos heq]
            simp
          · simp only [if_neg heq]
            by_cases hval : g.board.getD sel none = g.board.getD i none
            · simp only [if_pos hval]
              simp [mergeDice_highestDie]
            · simp only [if_neg hval]
              simp

theorem runOps_highestDie (ops : List Op) : ∀ g : Game,
    (runOps g ops).highestDie = max g.highestDie (traceMergeMax g ops) := by
  induction ops with
  | nil =>
    intro g
    simp [runOps, traceMergeMax]
  | cons op ops ih =>
    intro g
    have hstep : runOps g (op :: ops) = runOps (applyOp g op) ops := rfl
    rw [hstep, ih (applyOp g op), applyOp_highestDie]
    show _ = max g.highestDie (traceMergeMax g (op :: ops))
    rw [traceMergeMax, Nat.max_assoc]

/-- Counterexample for C4: a spawn can place a die of value 2 (probability
0.3) without touching `highestDie`, so right after the very first spawn of a
session `highestDie` is 1 while the maximum value present on the grid is 2 —
`highestDie` does not equal the maximum value ever present. -/
theorem highest_die_ignores_spawned_value :
    (addRandomDie (initialState []) 0 false).board.getD 0 none = some 2 ∧
    (addRandomDie (initialState []) 0 false).highestDie = 1 ∧
    (addRandomDie (initialState []) 0 false).highestDie ≠ 2 := by
  decide

/-- C4 (amended): `highestDie` is non-decreasing across every sequence of
engine operations, and after any sequence from a fresh session it equals the
maximum of 1 and all merge-result values produced so far; values placed by
`addRandomDie` do not update it. -/
theorem highest_die_monotone_and_tracks_merges :
    (∀ (g : Game) (l1 l2 : List Op),
      (runOps g l1).highestDie ≤ (runOps g (l1 ++ l2)).highestDie) ∧
    (∀ (hs : List ScoreRecord) (ops : List Op),
      (runOps (initialState hs) ops).highestDie =
        max 1 (traceMergeMax (initialState hs) ops)) := by
  constructor
  · intro g l1 l2
    have happ : runOps g (l1 ++ l2) = runOps (runOps g l1) l2 := by
      simp [runOps, List.foldl_append]
    rw [happ, runOps_highestDie l2 (runOps g l1)]
    exact Nat.le_max_left _ _
  · intro hs ops
    rw [runOps_highestDie ops (initialState hs)]
    rfl

end MergeDice
